import Mathlib

/-!
Verification of the codex HTTP/SSE transport (`codex-rs/http-server`):
the `HttpMessage` wire envelope (`message.rs`), the session stream state
machine (`agent_handler.rs`, `run_codex_session`), the SSE multiplexer and
request dispatcher (`server.rs`).  Streams are embedded as the lists of
items they produce; the `tokio::select!` scheduling is embedded as an
explicit schedule of branch choices.
-/

/-- Modelled from the spec: JSON values appearing in the flat Message
envelope (the crate uses `serde_json`, which is not under `src/`).  The
envelope is a flat object, so only primitive field values are needed. -/
inductive JsonVal where
  | str (s : String)
  | num (n : Nat)
deriving DecidableEq

/-- A JSON object as an association list of fields, in order. -/
abbrev JsonObj := List (String × JsonVal)

/-- Modelled from the spec: `codex_protocol::protocol::EventMsg` is not under
`src/`; the spec describes it as a tagged union (kind discriminator plus
kind-specific fields).  The variants named by the transport code
(`agent_handler.rs` matches `UserMessage`, `AgentMessage`,
`AgentMessageDelta`, `AgentReasoningDelta`, `AgentReasoningRawContentDelta`,
`TokenCount`, `TaskComplete`, `Error`) are modelled, plus two further
ordinary kinds standing for the remaining ones. -/
inductive EventMsg where
  | UserMessage (message : String)
  | AgentMessage (message : String)
  | AgentMessageDelta (delta : String)
  | AgentReasoning (text : String)
  | AgentReasoningDelta (delta : String)
  | AgentReasoningRawContentDelta (delta : String)
  | TokenCount (count : Nat)
  | TaskStarted
  | TaskComplete (last_agent_message : String)
  | Error (message : String)
deriving DecidableEq

/-- Modelled from the spec: `codex_protocol::protocol::Event` is not under
`src/`; `message.rs` uses exactly its `id` and `msg` fields. -/
structure Event where
  id : String
  msg : EventMsg
deriving DecidableEq

/-- `HttpMessage` from `message.rs`: optional `id`, optional `work_dir`
(the spec's routing metadata), and the flattened event payload. -/
structure HttpMessage where
  id : Option String
  work_dir : Option String
  event : EventMsg
deriving DecidableEq

/-- Modelled from the spec: the serde encoding of the tagged union
(discriminator and kind-specific fields at top level, next to `id`).
The discriminator key is `type`; field keys never collide with `id` or
`work_dir`. -/
def encodeEventMsg : EventMsg → JsonObj
  | .UserMessage m => [("type", .str "user_message"), ("message", .str m)]
  | .AgentMessage m => [("type", .str "agent_message"), ("message", .str m)]
  | .AgentMessageDelta d => [("type", .str "agent_message_delta"), ("delta", .str d)]
  | .AgentReasoning t => [("type", .str "agent_reasoning"), ("text", .str t)]
  | .AgentReasoningDelta d => [("type", .str "agent_reasoning_delta"), ("delta", .str d)]
  | .AgentReasoningRawContentDelta d =>
      [("type", .str "agent_reasoning_raw_content_delta"), ("delta", .str d)]
  | .TokenCount n => [("type", .str "token_count"), ("count", .num n)]
  | .TaskStarted => [("type", .str "task_started")]
  | .TaskComplete m => [("type", .str "task_complete"), ("last_agent_message", .str m)]
  | .Error m => [("type", .str "error"), ("message", .str m)]

/-- Look up a string-valued field. -/
def getStr (o : JsonObj) (k : String) : Option String :=
  match o.lookup k with
  | some (.str s) => some s
  | _ => none

/-- Look up a number-valued field. -/
def getNat (o : JsonObj) (k : String) : Option Nat :=
  match o.lookup k with
  | some (.num n) => some n
  | _ => none

/-- Modelled from the spec: decoding of the tagged union from the flat
object (inverse of `encodeEventMsg`); an unknown or missing discriminator
fails the decode explicitly. -/
def decodeEventMsg (o : JsonObj) : Option EventMsg :=
  match getStr o "type" with
  | some "user_message" => (getStr o "message").map .UserMessage
  | some "agent_message" => (getStr o "message").map .AgentMessage
  | some "agent_message_delta" => (getStr o "delta").map .AgentMessageDelta
  | some "agent_reasoning" => (getStr o "text").map .AgentReasoning
  | some "agent_reasoning_delta" => (getStr o "delta").map .AgentReasoningDelta
  | some "agent_reasoning_raw_content_delta" =>
      (getStr o "delta").map .AgentReasoningRawContentDelta
  | some "token_count" => (getNat o "count").map .TokenCount
  | some "task_started" => some .TaskStarted
  | some "task_complete" => (getStr o "last_agent_message").map .TaskComplete
  | some "error" => (getStr o "message").map .Error
  | _ => none

/-- An optional string field: absent decodes to `none`
(`#[serde(skip_serializing_if = "Option::is_none")]` on the Rust side). -/
def decodeOptStr (o : JsonObj) (k : String) : Option (Option String) :=
  match o.lookup k with
  | none => some none
  | some (.str s) => some (some s)
  | some _ => none

/-- `HttpMessage::to_json` (`message.rs`), at the JSON-object level:
`id` and `work_dir` are omitted when absent, the event payload is
flattened into the same object. -/
def HttpMessage.toJson (m : HttpMessage) : JsonObj :=
  (match m.id with | some i => [("id", JsonVal.str i)] | none => [])
    ++ (match m.work_dir with | some w => [("work_dir", JsonVal.str w)] | none => [])
    ++ encodeEventMsg m.event

/-- `HttpMessage::from_json` (`message.rs`), at the JSON-object level. -/
def HttpMessage.fromJson (o : JsonObj) : Option HttpMessage :=
  match decodeOptStr o "id", decodeOptStr o "work_dir", decodeEventMsg o with
  | some i, some w, some e => some ⟨i, w, e⟩
  | _, _, _ => none

/-- `HttpMessage::from_event` (`message.rs`). -/
def HttpMessage.fromEvent (e : Event) : HttpMessage :=
  ⟨some e.id, none, e.msg⟩

/-- `HttpMessage::to_event` (`message.rs`): an absent `id` is replaced by
`unwrap_or_default`, the empty string. -/
def HttpMessage.toEvent (m : HttpMessage) : Event :=
  ⟨m.id.getD "", m.event⟩

/-- The suppressed high-frequency kinds, from the filter in
`agent_handler.rs` (`run_codex_session`): `AgentMessageDelta`,
`AgentReasoningDelta`, `AgentReasoningRawContentDelta`, `TokenCount`. -/
def isSuppressed : EventMsg → Bool
  | .AgentMessageDelta _ => true
  | .AgentReasoningDelta _ => true
  | .AgentReasoningRawContentDelta _ => true
  | .TokenCount _ => true
  | _ => false

/-- The terminal kinds, from the break condition in `agent_handler.rs`
(`run_codex_session`): `TaskComplete` and `Error`. -/
def isTerminal : EventMsg → Bool
  | .TaskComplete _ => true
  | .Error _ => true
  | _ => false

/-- One scripted outcome of `conversation.next_event()`: an event, or a
runtime failure with its description. -/
inductive FetchResult where
  | ok (e : Event)
  | err (msg : String)
deriving DecidableEq

/-- The synthesized terminal error of `run_codex_session` on a fetch
failure (`format!("Codex runtime error: {e}")`). -/
def runtimeErrorEvent (e : String) : EventMsg :=
  .Error ("Codex runtime error: " ++ e)

/-- `AgentHandler::run_codex_session` (`agent_handler.rs`): the stream body,
as a function from the script of `next_event` outcomes to the list of
yielded events.  Each loop iteration fetches; on success it yields the
event unless suppressed, then breaks if the event is terminal; on failure
it yields one synthesized error event and breaks.  An exhausted script
models the upstream source ending without a terminal event. -/
def runCodexSession : List FetchResult → List EventMsg
  | [] => []
  | .ok e :: rest =>
      (if isSuppressed e.msg then [] else [e.msg])
        ++ (if isTerminal e.msg then [] else runCodexSession rest)
  | .err m :: _ => [runtimeErrorEvent m]

/-- The events actually fetched from upstream during a run of
`run_codex_session`: the script's events up to and including the first
terminal one, stopping at a fetch failure. -/
def fetchedEvents : List FetchResult → List EventMsg
  | [] => []
  | .ok e :: rest => e.msg :: (if isTerminal e.msg then [] else fetchedEvents rest)
  | .err _ :: _ => []

/-- The fetch failure reached by a run of `run_codex_session`, if any. -/
def fetchFailure : List FetchResult → Option String
  | [] => none
  | .ok e :: rest => if isTerminal e.msg then none else fetchFailure rest
  | .err m :: _ => some m

/-- The keep-alive ticker period of the SSE loop, seconds
(`Duration::from_secs(15)` in `create_sse_response`, `server.rs`). -/
def pingIntervalSecs : Nat := 15

/-- The outer axum keep-alive period, seconds
(`KeepAlive::new().interval(Duration::from_secs(30))`, `server.rs`). -/
def keepAliveIntervalSecs : Nat := 30

/-- One outbound SSE frame: the optional `event:` field and the `data:`
field (`axum::response::sse::Event`). -/
structure SseFrame where
  eventField : Option String
  dataField : String
deriving DecidableEq

/-- The keep-alive frame of the ticker branch
(`Event::default().event("ping").data("ping")`, `server.rs`). -/
def pingFrame : SseFrame := ⟨some "ping", "ping"⟩

/-- Whether a frame is a keep-alive ping, recognised by its `event:`
field. -/
def isPingFrame (f : SseFrame) : Bool := f.eventField == some "ping"

/-- One resolution of the `tokio::select!` in `create_sse_response`:
either the data-stream branch or the ticker branch was ready first. -/
inductive MuxTok where
  | data
  | tick
deriving DecidableEq

/-- Number of data-branch selections in a schedule. -/
def dataCount : List MuxTok → Nat
  | [] => 0
  | .data :: s => dataCount s + 1
  | .tick :: s => dataCount s

/-- The outbound Message an SSE data event is wrapped in
(`server.rs`, `create_sse_response`): the originating request's id, no
`work_dir`, the event unchanged. -/
def wrapEvent (request_id : Option String) (e : EventMsg) : HttpMessage :=
  ⟨request_id, none, e⟩

/-- The SSE multiplexer loop of `create_sse_response` (`server.rs`), as a
function of the remaining data-stream items and a schedule of select
resolutions.  `enc` is the serializer (`HttpMessage::to_json`); `none`
models a serialization failure.  A tick yields a ping frame; a data
selection on a live stream wraps, serializes and yields the event, or
breaks on serialization failure; a data selection on an exhausted stream
breaks.  An exhausted schedule ends the observation. -/
def muxRun (enc : HttpMessage → Option String) (request_id : Option String) :
    List EventMsg → List MuxTok → List SseFrame
  | _, [] => []
  | evs, .tick :: s => pingFrame :: muxRun enc request_id evs s
  | [], .data :: _ => []
  | e :: evs, .data :: s =>
      match enc (wrapEvent request_id e) with
      | some json => ⟨none, json⟩ :: muxRun enc request_id evs s
      | none => []

/-- `HandlerResponse` (`server.rs`): a standard JSON reply or an SSE
stream, the stream embedded as the list of items it produces. -/
inductive HandlerResponse where
  | Standard (m : HttpMessage)
  | Stream (events : List EventMsg)

/-- The HTTP responses `handle_messages` can produce: a JSON body, an SSE
response (recording the request id and data stream handed to
`create_sse_response`), or a plain-text response with a status code. -/
inductive HttpResponse where
  | json (status : Nat) (body : JsonObj)
  | sse (request_id : Option String) (events : List EventMsg)
  | plain (status : Nat) (body : String)

/-- The status code of a response; an SSE response is served `200`. -/
def HttpResponse.status : HttpResponse → Nat
  | .json s _ => s
  | .sse _ _ => 200
  | .plain s _ => s

/-- Status of the axum `Json` extractor rejection for a body that fails to
deserialize as `HttpMessage`: `422 Unprocessable Entity`. -/
def jsonRejectionStatus : Nat := 422

/-- `handle_messages` (`server.rs`): decode the body as an `HttpMessage`
(the axum `Json` extractor; failure rejects with a 4xx before the handler
runs), invoke the handler, and dispatch on its result: `Standard` is
returned as 200 JSON, `Stream` is handed to `create_sse_response` together
with this request's `id`, a handler error becomes a 500 with the error's
description. -/
def handleMessages (handler : HttpMessage → Except String HandlerResponse)
    (body : JsonObj) : HttpResponse :=
  match HttpMessage.fromJson body with
  | none => .plain jsonRejectionStatus "Failed to deserialize the JSON body"
  | some request =>
    match handler request with
    | .ok (.Standard response) => .json 200 response.toJson
    | .ok (.Stream stream) => .sse request.id stream
    | .error e => .plain 500 e

/-- The outcomes of the external agent runtime calls made by
`AgentHandler::handle_request`: the result of
`conversation_manager.new_conversation`, of `conversation.submit`, and the
script of `conversation.next_event` outcomes for the created session.
File-system side effects (AGENTS.md creation) and config overrides carry no
transport behaviour and are outside the model. -/
structure AgentEnv where
  new_conversation : Except String Unit
  submit : Except String Unit
  feed : List FetchResult

/-- The prompt `AgentHandler::handle_request` extracts: from a
`UserMessage` or `AgentMessage` payload, its message; nothing otherwise. -/
def promptOf : EventMsg → Option String
  | .UserMessage m => some m
  | .AgentMessage m => some m
  | _ => none

/-- `AgentHandler::handle_request` (`agent_handler.rs`): reject any payload
kind other than `UserMessage`/`AgentMessage` with an error before touching
the runtime; otherwise create a conversation, submit the prompt (each
failure is reported as an error result), and return the session stream. -/
def agentHandleRequest (env : AgentEnv) (request : HttpMessage) :
    Except String HandlerResponse :=
  match promptOf request.event with
  | none => .error "Invalid request: expected UserMessage or AgentMessage event"
  | some _prompt =>
    match env.new_conversation with
    | .error e => .error ("Failed to create Codex conversation: " ++ e)
    | .ok _ =>
      match env.submit with
      | .error e => .error ("Failed to submit initial prompt: " ++ e)
      | .ok _ => .ok (.Stream (runCodexSession env.feed))

/-- A concrete serializer for witnesses: constant JSON text. -/
def encConst (s : String) : HttpMessage → Option String := fun _ => some s

/-- A concrete partial serializer for witnesses: fails exactly on `Error`
payloads. -/
def encNoError : HttpMessage → Option String := fun m =>
  match m.event with
  | .Error _ => none
  | _ => some "J"

/-- A terminal event kind is never a suppressed kind. -/
lemma isTerminal_not_suppressed (m : EventMsg) (h : isTerminal m = true) :
    isSuppressed m = false := by
  cases m <;> simp_all [isTerminal, isSuppressed]

/-- The output of a session run is the non-suppressed fetched events, in
fetch order, followed by the synthesized error when the run ended in a
fetch failure. -/
lemma runCodexSession_eq_filter (feed : List FetchResult) :
    runCodexSession feed
      = (fetchedEvents feed).filter (fun m => !isSuppressed m)
        ++ (match fetchFailure feed with
            | some e => [runtimeErrorEvent e]
            | none => []) := by
  induction feed with
  | nil => rfl
  | cons f rest ih =>
    cases f with
    | ok e =>
      by_cases ht : isTerminal e.msg
      · have hs := isTerminal_not_suppressed e.msg ht
        simp [runCodexSession, fetchedEvents, fetchFailure, ht, hs]
      · have ht' : isTerminal e.msg = false := by simpa using ht
        by_cases hs : isSuppressed e.msg
        · simp [runCodexSession, fetchedEvents, fetchFailure, ht', hs, ih,
            List.filter_cons]
        · have hs' : isSuppressed e.msg = false := by simpa using hs
          simp [runCodexSession, fetchedEvents, fetchFailure, ht', hs', ih,
            List.filter_cons]
    | err m => rfl

/-- Claim C1: the session stream state machine never yields an event of a
suppressed kind (agent-message delta, agent-reasoning delta, agent-reasoning
raw-content delta, token-count), and every other-kind event fetched from
upstream is yielded exactly once, in fetch order: the output is exactly the
fetched events with the suppressed ones removed, followed only by the
synthesized terminal error when a fetch failed. -/
theorem runCodexSession_filter_correct (feed : List FetchResult) :
    runCodexSession feed
      = (fetchedEvents feed).filter (fun m => !isSuppressed m)
        ++ (match fetchFailure feed with
            | some e => [runtimeErrorEvent e]
            | none => [])
    ∧ ∀ m ∈ runCodexSession feed, isSuppressed m = false := by
  refine ⟨runCodexSession_eq_filter feed, ?_⟩
  intro m hm
  rw [runCodexSession_eq_filter feed] at hm
  rcases List.mem_append.1 hm with h | h
  · simpa using (List.mem_filter.1 h).2
  · rcases hf : fetchFailure feed with _ | e <;> rw [hf] at h
    · simp at h
    · simp only [List.mem_singleton] at h
      subst h
      rfl

/-- Running the machine over a scripted prefix of successful, non-terminal
fetches yields their non-suppressed events and continues with the rest of
the script. -/
lemma runCodexSession_ok_segment (es : List Event) (tail : List FetchResult)
    (h : ∀ e ∈ es, isTerminal e.msg = false) :
    runCodexSession (es.map .ok ++ tail)
      = (es.map Event.msg).filter (fun m => !isSuppressed m)
        ++ runCodexSession tail := by
  induction es with
  | nil => rfl
  | cons e es ih =>
    have ht : isTerminal e.msg = false := h e (List.mem_cons_self e es)
    have ih' := ih (fun x hx => h x (List.mem_cons_of_mem e hx))
    by_cases hs : isSuppressed e.msg
    · simp [runCodexSession, ht, hs, ih', List.filter_cons]
    · have hs' : isSuppressed e.msg = false := by simpa using hs
      simp [runCodexSession, ht, hs', ih', List.filter_cons]

/-- Claim C2: a feed of successful fetches ending in a terminal-kind event
makes the machine yield that terminal event last and end; a feed whose
fetch fails makes it yield exactly one synthesized terminal error carrying
the failure's description and end, with the result independent of anything
scripted after the failing fetch (no further fetches are attempted). -/
theorem runCodexSession_termination (es : List Event) (t : Event) (m : String)
    (rest : List FetchResult) :
    ((∀ e ∈ es, isTerminal e.msg = false) → isTerminal t.msg = true →
      runCodexSession ((es ++ [t]).map .ok)
        = (es.map Event.msg).filter (fun x => !isSuppressed x) ++ [t.msg])
    ∧ ((∀ e ∈ es, isTerminal e.msg = false) →
      runCodexSession (es.map .ok ++ .err m :: rest)
        = (es.map Event.msg).filter (fun x => !isSuppressed x)
          ++ [runtimeErrorEvent m]) := by
  constructor
  · intro hes ht
    rw [List.map_append, runCodexSession_ok_segment es _ hes]
    have hs := isTerminal_not_suppressed t.msg ht
    simp [runCodexSession, ht, hs]
  · intro hes
    rw [runCodexSession_ok_segment es _ hes]
    rfl

/-- Witness for C2 at a concrete feed: one ordinary event then a
`TaskComplete`, and one ordinary event then a failing fetch. -/
theorem runCodexSession_termination_witness :
    runCodexSession (([(⟨"1", EventMsg.AgentMessage "hi there"⟩ : Event)]
        ++ [(⟨"2", EventMsg.TaskComplete "done"⟩ : Event)]).map FetchResult.ok)
      = [EventMsg.AgentMessage "hi there", EventMsg.TaskComplete "done"]
    ∧ runCodexSession
        ([(⟨"1", EventMsg.AgentMessage "hi there"⟩ : Event)].map FetchResult.ok
          ++ .err "boom" :: [FetchResult.ok (⟨"9", EventMsg.TaskStarted⟩ : Event)])
      = [EventMsg.AgentMessage "hi there",
          EventMsg.Error "Codex runtime error: boom"] := by
  have h := runCodexSession_termination
    [(⟨"1", EventMsg.AgentMessage "hi there"⟩ : Event)]
    (⟨"2", EventMsg.TaskComplete "done"⟩ : Event) "boom"
    [FetchResult.ok (⟨"9", EventMsg.TaskStarted⟩ : Event)]
  exact ⟨by simpa using h.1 (by decide) (by decide),
    by simpa [runtimeErrorEvent] using h.2 (by decide)⟩

/-- Claim C4: decoding the encoding of any representable `HttpMessage` — any
combination of present/absent `id`, present/absent `work_dir`, any payload
kind — yields the message back unchanged. -/
theorem toJson_fromJson_roundtrip (m : HttpMessage) :
    HttpMessage.fromJson m.toJson = some m := by
  obtain ⟨i, w, ev⟩ := m
  cases i <;> cases w <;> cases ev <;> rfl

/-- Claim C9: `to_event` after `from_event` is the identity on events, but
`from_event` after `to_event` is not the identity on messages: an absent
`id` comes back as `some ""` because `to_event` substitutes the default
empty string. -/
theorem fromEvent_toEvent_roundtrip :
    (∀ e : Event, (HttpMessage.fromEvent e).toEvent = e)
    ∧ ∀ m : HttpMessage, m.id = none →
        HttpMessage.fromEvent m.toEvent ≠ m := by
  constructor
  · intro e
    rfl
  · intro m hm hcontra
    have h := congrArg HttpMessage.id hcontra
    simp [HttpMessage.fromEvent, HttpMessage.toEvent, hm] at h

/-- Every frame the multiplexer emits is either the ping frame (from the
ticker branch) or a data frame — `event:` field absent, `data:` field the
serialization of one of the first `dataCount sched` stream items wrapped
for this request. -/
lemma muxRun_frames (enc : HttpMessage → Option String) (rid : Option String) :
    ∀ (sched : List MuxTok) (evs : List EventMsg) (f : SseFrame),
      f ∈ muxRun enc rid evs sched →
      f = pingFrame
      ∨ (f.eventField = none
          ∧ ∃ e ∈ evs.take (dataCount sched),
              enc (wrapEvent rid e) = some f.dataField) := by
  intro sched
  induction sched with
  | nil =>
    intro evs f hf
    simp [muxRun] at hf
  | cons t s ih =>
    intro evs f hf
    cases t with
    | tick =>
      simp only [muxRun] at hf
      rcases List.mem_cons.1 hf with h | h
      · exact Or.inl h
      · rcases ih evs f h with h' | ⟨hn, e, he, henc⟩
        · exact Or.inl h'
        · exact Or.inr ⟨hn, e, he, henc⟩
    | data =>
      cases evs with
      | nil => simp [muxRun] at hf
      | cons e evs' =>
        cases henc : enc (wrapEvent rid e) with
        | none => simp [muxRun, henc] at hf
        | some j =>
          simp only [muxRun, henc, List.mem_cons] at hf
          rcases hf with h | h
          · subst h
            exact Or.inr ⟨rfl, e, by simp [dataCount], henc⟩
          · rcases ih evs' f h with h' | ⟨hn, x, hx, hencx⟩
            · exact Or.inl h'
            · refine Or.inr ⟨hn, x, ?_, hencx⟩
              simp only [dataCount, List.take_succ_cons, List.mem_cons]
              exact Or.inr hx

/-- Witness for C9 at a concrete event and a concrete id-less message. -/
theorem fromEvent_toEvent_roundtrip_witness :
    (HttpMessage.fromEvent ⟨"7", EventMsg.TaskStarted⟩).toEvent
        = ⟨"7", EventMsg.TaskStarted⟩
    ∧ HttpMessage.fromEvent
          (HttpMessage.toEvent ⟨none, none, EventMsg.TaskStarted⟩)
        ≠ ⟨none, none, EventMsg.TaskStarted⟩ :=
  ⟨fromEvent_toEvent_roundtrip.1 _, fromEvent_toEvent_roundtrip.2 _ rfl⟩

/-- Running the multiplexer over a schedule prefix whose data selections
all serialize successfully, then a suffix, is running it over the prefix
and continuing from the remaining stream items: the output decomposes
along the schedule. -/
lemma muxRun_append (enc : HttpMessage → Option String) (rid : Option String) :
    ∀ (s₁ : List MuxTok) (evs : List EventMsg) (s₂ : List MuxTok),
      dataCount s₁ ≤ evs.length →
      (∀ e ∈ evs.take (dataCount s₁), (enc (wrapEvent rid e)).isSome = true) →
      muxRun enc rid evs (s₁ ++ s₂)
        = muxRun enc rid evs s₁
            ++ muxRun enc rid (evs.drop (dataCount s₁)) s₂ := by
  intro s₁
  induction s₁ with
  | nil =>
    intro evs s₂ _ _
    simp [muxRun, dataCount]
  | cons t s ih =>
    intro evs s₂ hlen hsucc
    cases t with
    | tick =>
      simp only [List.cons_append, muxRun, dataCount] at *
      rw [ih evs s₂ hlen hsucc]
    | data =>
      cases evs with
      | nil => simp [dataCount] at hlen
      | cons e evs' =>
        have he : (enc (wrapEvent rid e)).isSome = true := by
          refine hsucc e ?_
          simp [dataCount]
        rcases Option.isSome_iff_exists.1 he with ⟨j, hj⟩
        have hlen' : dataCount s ≤ evs'.length := by
          simpa [dataCount, Nat.succ_le_succ_iff] using hlen
        have hsucc' : ∀ x ∈ evs'.take (dataCount s),
            (enc (wrapEvent rid x)).isSome = true := by
          intro x hx
          refine hsucc x ?_
          simp only [dataCount, List.take_succ_cons, List.mem_cons]
          exact Or.inr hx
        simp only [List.cons_append, muxRun, hj, dataCount, List.drop_succ_cons]
        exact congrArg (List.cons ⟨none, j⟩) (ih evs' s₂ hlen' hsucc')

/-- With a total serializer, removing the ping frames from the
multiplexer's output leaves exactly the consumed stream items, wrapped and
serialized, in order. -/
lemma muxRun_total_filter (encS : HttpMessage → String) (rid : Option String) :
    ∀ (sched : List MuxTok) (evs : List EventMsg),
      dataCount sched ≤ evs.length →
      (muxRun (fun m => some (encS m)) rid evs sched).filter
          (fun f => !isPingFrame f)
        = (evs.take (dataCount sched)).map
            (fun e => ⟨none, encS (wrapEvent rid e)⟩) := by
  intro sched
  induction sched with
  | nil =>
    intro evs _
    simp [muxRun, dataCount]
  | cons t s ih =>
    intro evs hlen
    cases t with
    | tick =>
      have hp : isPingFrame pingFrame = true := rfl
      simp only [muxRun, dataCount] at *
      simp [List.filter_cons, hp, ih evs hlen]
    | data =>
      cases evs with
      | nil => simp [dataCount] at hlen
      | cons e evs' =>
        have hlen' : dataCount s ≤ evs'.length := by
          simpa [dataCount, Nat.succ_le_succ_iff] using hlen
        have hd : isPingFrame ⟨none, encS (wrapEvent rid e)⟩ = false := rfl
        simp only [muxRun, dataCount, List.take_succ_cons, List.map_cons]
        simp [List.filter_cons, hd, ih evs' hlen']

/-- Claim C3: for a scripted stream of N data events and a schedule
interleaving N data selections with arbitrarily many ticker firings, the
multiplexer's output with the ping frames removed is exactly the N events,
wrapped and serialized, in original order; and the multiplexed stream ends
when the data source ends — everything scheduled after the stream-ending
selection contributes nothing. -/
theorem create_sse_response_ordering (request_id : Option String)
    (encS : HttpMessage → String) (evs : List EventMsg) (s₁ s₂ : List MuxTok)
    (h : dataCount s₁ = evs.length) :
    (muxRun (fun m => some (encS m)) request_id evs
        (s₁ ++ MuxTok.data :: s₂)).filter (fun f => !isPingFrame f)
      = evs.map (fun e => ⟨none, encS (wrapEvent request_id e)⟩)
    ∧ muxRun (fun m => some (encS m)) request_id evs (s₁ ++ MuxTok.data :: s₂)
      = muxRun (fun m => some (encS m)) request_id evs (s₁ ++ [MuxTok.data]) := by
  have hle : dataCount s₁ ≤ evs.length := le_of_eq h
  have hsucc : ∀ e ∈ evs.take (dataCount s₁),
      (((fun m => some (encS m)) : HttpMessage → Option String)
        (wrapEvent request_id e)).isSome = true := fun e _ => rfl
  have h1 := muxRun_append (fun m => some (encS m)) request_id s₁ evs
    (MuxTok.data :: s₂) hle hsucc
  have h2 := muxRun_append (fun m => some (encS m)) request_id s₁ evs
    [MuxTok.data] hle hsucc
  rw [h, List.drop_length] at h1 h2
  have hnil1 : muxRun (fun m => some (encS m)) request_id []
      (MuxTok.data :: s₂) = [] := rfl
  have hnil2 : muxRun (fun m => some (encS m)) request_id []
      [MuxTok.data] = [] := rfl
  rw [hnil1, List.append_nil] at h1
  rw [hnil2, List.append_nil] at h2
  constructor
  · rw [h1]
    have hfil := muxRun_total_filter encS request_id s₁ evs hle
    rw [h, List.take_length] at hfil
    exact hfil
  · rw [h1, h2]

/-- Witness for C3: two data events, ticks interleaved, a constant
serializer. -/
theorem create_sse_response_ordering_witness :
    (muxRun (fun _ => some "J") (some "42")
        [EventMsg.AgentMessage "hi there", EventMsg.TaskComplete "done"]
        ([MuxTok.tick, .data, .tick, .data] ++ MuxTok.data :: [MuxTok.tick])).filter
        (fun f => !isPingFrame f)
      = [⟨none, "J"⟩, ⟨none, "J"⟩]
    ∧ muxRun (fun _ => some "J") (some "42")
        [EventMsg.AgentMessage "hi there", EventMsg.TaskComplete "done"]
        ([MuxTok.tick, .data, .tick, .data] ++ MuxTok.data :: [MuxTok.tick])
      = muxRun (fun _ => some "J") (some "42")
        [EventMsg.AgentMessage "hi there", EventMsg.TaskComplete "done"]
        ([MuxTok.tick, .data, .tick, .data] ++ [MuxTok.data]) := by
  have h := create_sse_response_ordering (some "42") (fun _ => "J")
    [EventMsg.AgentMessage "hi there", EventMsg.TaskComplete "done"]
    [MuxTok.tick, .data, .tick, .data] [MuxTok.tick] (by decide)
  exact ⟨by simpa using h.1, h.2⟩

/-- Claim C6: every data event the multiplexer emits is wrapped, before
serialization, in an outbound Message whose `id` is the originating
request's id and whose `work_dir` is absent, carrying the event unchanged:
every non-ping output frame is the serialization of exactly such a
wrapping of some stream event. -/
theorem create_sse_response_wrap (enc : HttpMessage → Option String)
    (request_id : Option String) (evs : List EventMsg) (sched : List MuxTok)
    (f : SseFrame) (hf : f ∈ muxRun enc request_id evs sched) :
    isPingFrame f = true
    ∨ (f.eventField = none
        ∧ ∃ e ∈ evs,
            enc ⟨request_id, none, e⟩ = some f.dataField) := by
  rcases muxRun_frames enc request_id sched evs f hf with h | ⟨hn, e, he, henc⟩
  · subst h
    exact Or.inl rfl
  · exact Or.inr ⟨hn, e, List.take_subset _ _ he, henc⟩

/-- Witness for C6: the single data frame of a one-event run. -/
theorem create_sse_response_wrap_witness :
    isPingFrame ⟨none, "D"⟩ = true
    ∨ ((⟨none, "D"⟩ : SseFrame).eventField = none
        ∧ ∃ e ∈ [EventMsg.TaskStarted],
            encConst "D" ⟨some "1", none, e⟩
              = some (SseFrame.dataField ⟨none, "D"⟩)) :=
  create_sse_response_wrap (encConst "D") (some "1") [EventMsg.TaskStarted]
    [MuxTok.data] ⟨none, "D"⟩ (by decide)

/-- Claim C7: if serialization fails at some point of the multiplexer
loop, the stream terminates immediately there: the output equals the
output of the truncated schedule (nothing — no data frame and no ping — is
emitted at or after the failing selection), and the failing event itself
is never sent, every emitted data frame coming from the events before
it. -/
theorem create_sse_response_serialization_fatal
    (enc : HttpMessage → Option String) (request_id : Option String)
    (good : List EventMsg) (e : EventMsg) (rest : List EventMsg)
    (s₁ s₂ : List MuxTok)
    (hgood : ∀ g ∈ good, (enc (wrapEvent request_id g)).isSome = true)
    (hfail : enc (wrapEvent request_id e) = none)
    (hcount : dataCount s₁ = good.length) :
    muxRun enc request_id (good ++ e :: rest) (s₁ ++ MuxTok.data :: s₂)
      = muxRun enc request_id (good ++ e :: rest) s₁
    ∧ ∀ f ∈ muxRun enc request_id (good ++ e :: rest) s₁,
        f = pingFrame
        ∨ ∃ g ∈ good, enc (wrapEvent request_id g) = some f.dataField := by
  have hle : dataCount s₁ ≤ (good ++ e :: rest).length := by
    simp [hcount]
  have htake : (good ++ e :: rest).take (dataCount s₁) = good := by
    rw [hcount]
    exact List.take_left good (e :: rest)
  have hdrop : (good ++ e :: rest).drop (dataCount s₁) = e :: rest := by
    rw [hcount]
    exact List.drop_left good (e :: rest)
  have hsucc : ∀ x ∈ (good ++ e :: rest).take (dataCount s₁),
      (enc (wrapEvent request_id x)).isSome = true := by
    rw [htake]
    exact hgood
  have h1 := muxRun_append enc request_id s₁ (good ++ e :: rest)
    (MuxTok.data :: s₂) hle hsucc
  rw [hdrop] at h1
  have h0 : muxRun enc request_id (e :: rest) (MuxTok.data :: s₂) = [] := by
    simp [muxRun, hfail]
  constructor
  · rw [h1, h0, List.append_nil]
  · intro f hf
    rcases muxRun_frames enc request_id s₁ (good ++ e :: rest) f hf
      with h | ⟨_, g, hg, henc⟩
    · exact Or.inl h
    · rw [htake] at hg
      exact Or.inr ⟨g, hg, henc⟩

/-- Witness for C7: a serializer that fails on `Error` payloads, one good
event, then the failing one. -/
theorem create_sse_response_serialization_fatal_witness :
    muxRun encNoError (some "7")
        ([EventMsg.AgentMessage "hi"] ++ EventMsg.Error "x" :: [])
        ([MuxTok.data, MuxTok.tick] ++ MuxTok.data :: [MuxTok.tick, MuxTok.data])
      = muxRun encNoError (some "7")
        ([EventMsg.AgentMessage "hi"] ++ EventMsg.Error "x" :: [])
        [MuxTok.data, MuxTok.tick]
    ∧ ∀ f ∈ muxRun encNoError (some "7")
        ([EventMsg.AgentMessage "hi"] ++ EventMsg.Error "x" :: [])
        [MuxTok.data, MuxTok.tick],
        f = pingFrame
        ∨ ∃ g ∈ [EventMsg.AgentMessage "hi"],
            encNoError (wrapEvent (some "7") g) = some f.dataField :=
  create_sse_response_serialization_fatal encNoError (some "7")
    [EventMsg.AgentMessage "hi"] (EventMsg.Error "x") []
    [MuxTok.data, MuxTok.tick] [MuxTok.tick, MuxTok.data]
    (by decide) rfl (by decide)

/-- Claim C8: the keep-alive frame emitted by the 15-second ticker branch
has `event:` field `ping` and `data:` field the literal `ping`, and every
multiplexer output frame is either that ping frame or a data frame whose
`event:` field is not `ping` and whose `data:` field is a serialized
Message envelope, so the two are always distinguishable. -/
theorem create_sse_response_ping (enc : HttpMessage → Option String)
    (request_id : Option String) (evs : List EventMsg) (sched : List MuxTok) :
    pingFrame.eventField = some "ping"
    ∧ pingFrame.dataField = "ping"
    ∧ pingIntervalSecs = 15
    ∧ ∀ f ∈ muxRun enc request_id evs sched,
        f = pingFrame
        ∨ (f.eventField ≠ some "ping"
            ∧ ∃ e ∈ evs, enc (wrapEvent request_id e) = some f.dataField) := by
  refine ⟨rfl, rfl, rfl, ?_⟩
  intro f hf
  rcases muxRun_frames enc request_id sched evs f hf with h | ⟨hn, e, he, henc⟩
  · exact Or.inl h
  · refine Or.inr ⟨?_, e, List.take_subset _ _ he, henc⟩
    rw [hn]
    simp

/-- Witness for C8: the ping-frame shape at a concrete multiplexer
instance. -/
theorem create_sse_response_ping_witness :
    pingFrame.eventField = some "ping"
    ∧ pingFrame.dataField = "ping"
    ∧ pingIntervalSecs = 15 :=
  ⟨(create_sse_response_ping (encConst "J") none [] []).1,
    (create_sse_response_ping (encConst "J") none [] []).2.1,
    (create_sse_response_ping (encConst "J") none [] []).2.2.1⟩

/-- Claim C5: `POST /messages` — a body that fails to decode as a Message
yields a 4xx with the handler never invoked (the response is the same for
every handler); a `Standard` handler result yields 200 with that Message
serialized; a `Stream` result hands the stream to the SSE multiplexer
together with this request's id; a handler error yields a 5xx carrying the
error's description and the multiplexer is never invoked. -/
theorem handle_messages_dispatch
    (handler : HttpMessage → Except String HandlerResponse) (body : JsonObj) :
    (HttpMessage.fromJson body = none →
      handleMessages handler body
          = .plain jsonRejectionStatus "Failed to deserialize the JSON body"
        ∧ 400 ≤ (handleMessages handler body).status
        ∧ (handleMessages handler body).status < 500
        ∧ ∀ handler', handleMessages handler' body = handleMessages handler body)
    ∧ (∀ request response, HttpMessage.fromJson body = some request →
        handler request = .ok (.Standard response) →
        handleMessages handler body = .json 200 response.toJson)
    ∧ (∀ request stream, HttpMessage.fromJson body = some request →
        handler request = .ok (.Stream stream) →
        handleMessages handler body = .sse request.id stream)
    ∧ (∀ request e, HttpMessage.fromJson body = some request →
        handler request = .error e →
        handleMessages handler body = .plain 500 e
          ∧ ∀ rid evs, handleMessages handler body ≠ .sse rid evs) := by
  refine ⟨?_, ?_, ?_, ?_⟩
  · intro h
    refine ⟨?_, ?_, ?_, ?_⟩ <;>
      simp [handleMessages, h, HttpResponse.status, jsonRejectionStatus]
  · intro request response hd hh
    simp [handleMessages, hd, hh]
  · intro request stream hd hh
    simp [handleMessages, hd, hh]
  · intro request e hd hh
    refine ⟨by simp [handleMessages, hd, hh], ?_⟩
    intro rid evs hcontra
    simp [handleMessages, hd, hh] at hcontra

/-- Witness for C5: an undecodable body, and the three handler outcomes at
a concrete decodable body. -/
theorem handle_messages_dispatch_witness :
    handleMessages (fun req => Except.ok (HandlerResponse.Standard req)) []
      = .plain jsonRejectionStatus "Failed to deserialize the JSON body"
    ∧ handleMessages (fun req => Except.ok (HandlerResponse.Standard req))
        (HttpMessage.toJson ⟨some "42", none, EventMsg.UserMessage "hi"⟩)
      = .json 200 (HttpMessage.toJson ⟨some "42", none, EventMsg.UserMessage "hi"⟩)
    ∧ handleMessages
        (fun _ => Except.ok (HandlerResponse.Stream [EventMsg.TaskComplete "d"]))
        (HttpMessage.toJson ⟨some "42", none, EventMsg.UserMessage "hi"⟩)
      = .sse (some "42") [EventMsg.TaskComplete "d"]
    ∧ handleMessages (fun _ => Except.error "boom")
        (HttpMessage.toJson ⟨some "42", none, EventMsg.UserMessage "hi"⟩)
      = .plain 500 "boom" := by
  refine ⟨((handle_messages_dispatch
      (fun req => Except.ok (HandlerResponse.Standard req)) []).1 rfl).1,
    ?_, ?_, ?_⟩
  · exact (handle_messages_dispatch
      (fun req => Except.ok (HandlerResponse.Standard req))
      (HttpMessage.toJson ⟨some "42", none, EventMsg.UserMessage "hi"⟩)).2.1
      ⟨some "42", none, EventMsg.UserMessage "hi"⟩
      ⟨some "42", none, EventMsg.UserMessage "hi"⟩ rfl rfl
  · exact (handle_messages_dispatch
      (fun _ => Except.ok (HandlerResponse.Stream [EventMsg.TaskComplete "d"]))
      (HttpMessage.toJson ⟨some "42", none, EventMsg.UserMessage "hi"⟩)).2.2.1
      ⟨some "42", none, EventMsg.UserMessage "hi"⟩
      [EventMsg.TaskComplete "d"] rfl rfl
  · exact ((handle_messages_dispatch (fun _ => Except.error "boom")
      (HttpMessage.toJson ⟨some "42", none, EventMsg.UserMessage "hi"⟩)).2.2.2
      ⟨some "42", none, EventMsg.UserMessage "hi"⟩ "boom" rfl rfl).1

/-- Claim C10: the agent-backed handler returns a stream only for
`UserMessage`/`AgentMessage` payloads with conversation creation and prompt
submission succeeding; any other payload kind is answered with an error
result whose value is the same whatever the runtime would have done (no
session is created, no stream started); and it never returns a `Standard`
reply.  The model is a total function, so no input panics. -/
theorem agent_handle_request_dispatch (env : AgentEnv) (request : HttpMessage) :
    (promptOf request.event = none →
      (∃ e, agentHandleRequest env request = .error e)
        ∧ ∀ env', agentHandleRequest env' request = agentHandleRequest env request)
    ∧ (∀ p, promptOf request.event = some p →
        env.new_conversation = .ok () → env.submit = .ok () →
        agentHandleRequest env request
          = .ok (.Stream (runCodexSession env.feed)))
    ∧ (∀ stream, agentHandleRequest env request = .ok (.Stream stream) →
        (promptOf request.event).isSome = true
          ∧ env.new_conversation = .ok () ∧ env.submit = .ok ()
          ∧ stream = runCodexSession env.feed)
    ∧ ∀ m, agentHandleRequest env request ≠ .ok (.Standard m) := by
  refine ⟨?_, ?_, ?_, ?_⟩
  · intro h
    exact ⟨⟨"Invalid request: expected UserMessage or AgentMessage event",
        by simp [agentHandleRequest, h]⟩,
      fun env' => by simp [agentHandleRequest, h]⟩
  · intro p hp h1 h2
    simp [agentHandleRequest, hp, h1, h2]
  · intro stream hs
    rcases hp : promptOf request.event with _ | p
    · simp [agentHandleRequest, hp] at hs
    · rcases h1 : env.new_conversation with e1 | u1
      · simp [agentHandleRequest, hp, h1] at hs
      · rcases h2 : env.submit with e2 | u2
        · simp [agentHandleRequest, hp, h1, h2] at hs
        · cases u1
          cases u2
          simp [agentHandleRequest, hp, h1, h2] at hs
          exact ⟨by simp [hp], rfl, rfl, hs.symm⟩
  · intro m hcontra
    rcases hp : promptOf request.event with _ | p
    · simp [agentHandleRequest, hp] at hcontra
    · rcases h1 : env.new_conversation with e1 | u1
      · simp [agentHandleRequest, hp, h1] at hcontra
      · rcases h2 : env.submit with e2 | u2
        · simp [agentHandleRequest, hp, h1, h2] at hcontra
        · simp [agentHandleRequest, hp, h1, h2] at hcontra

/-- Witness for C10: a rejected payload kind, and a successful streaming
run at a concrete environment. -/
theorem agent_handle_request_dispatch_witness :
    (∃ e, agentHandleRequest ⟨Except.ok (), Except.ok (), []⟩
        ⟨none, none, EventMsg.TaskStarted⟩ = .error e)
    ∧ agentHandleRequest
        ⟨Except.ok (), Except.ok (),
          [FetchResult.ok (⟨"1", EventMsg.TaskComplete "d"⟩ : Event)]⟩
        ⟨some "42", none, EventMsg.UserMessage "hi"⟩
      = .ok (.Stream (runCodexSession
          [FetchResult.ok (⟨"1", EventMsg.TaskComplete "d"⟩ : Event)])) := by
  constructor
  · exact ((agent_handle_request_dispatch ⟨Except.ok (), Except.ok (), []⟩
      ⟨none, none, EventMsg.TaskStarted⟩).1 rfl).1
  · exact (agent_handle_request_dispatch
      ⟨Except.ok (), Except.ok (),
        [FetchResult.ok (⟨"1", EventMsg.TaskComplete "d"⟩ : Event)]⟩
      ⟨some "42", none, EventMsg.UserMessage "hi"⟩).2.1 "hi" rfl rfl rfl
